import Mathlib

/-
Verification of the validation and form-state-machine logic of the
Interactive Validation Form (src/components/InteractiveForm.tsx and
src/types.ts), embedded shallowly in Lean 4.

The component keeps four pieces of state: the field values (formData),
the error map (errors), the touched map (touched) and the submitted flag
(isSubmitted).  The validator is a pure function from a field name and a
string to an optional error message; the transitions are handleChange,
handleBlur, handleSubmit and handleReset.
-/

namespace InteractiveForm

/-- Field identifiers: the four keys of the FormState interface of
src/types.ts. -/
inductive FieldName : Type
  | name
  | email
  | phone
  | password
deriving DecidableEq, Repr

/-- Finite map from FieldName, with all four keys always present.  Used for
the values (strings), the error map (optional strings) and the touched map
(booleans). -/
structure FieldMap (α : Type) : Type where
  name : α
  email : α
  phone : α
  password : α
deriving DecidableEq, Repr

/-- Look up the entry of a field. -/
def FieldMap.get {α : Type} (m : FieldMap α) : FieldName → α
  | .name => m.name
  | .email => m.email
  | .phone => m.phone
  | .password => m.password

/-- Replace the entry of one field, leaving the others unchanged (the JS
spread update of one key). -/
def FieldMap.set {α : Type} (m : FieldMap α) : FieldName → α → FieldMap α
  | .name, v => { m with name := v }
  | .email, v => { m with email := v }
  | .phone, v => { m with phone := v }
  | .password, v => { m with password := v }

/-- FormState of src/types.ts: the four current text values. -/
abbrev FormState := FieldMap String

/-- FormErrors of src/types.ts: per-field optional error message; none
means the entry is absent from the JS object. -/
abbrev FormErrors := FieldMap (Option String)

/-- The touched map: Partial Record of booleans; an absent JS entry reads
as false. -/
abbrev TouchedMap := FieldMap Bool

/- ------------------------------------------------------------------
  Character classes of the regexes in validate.
------------------------------------------------------------------ -/

/-- The character class of the JavaScript regex escape \s (also the class
trimmed by String.prototype.trim): ASCII whitespace, NBSP, the Unicode
space separators, the line separators and the BOM. -/
def isJsSpace (c : Char) : Bool :=
  c = ' ' || c = '\t' || c = '\n' || c = '\r' || c = '\x0b' || c = '\x0c' ||
  c = '\u00A0' || c = '\u1680' || ( '\u2000' ≤ c && c ≤ '\u200A') ||
  c = '\u2028' || c = '\u2029' || c = '\u202F' || c = '\u205F' ||
  c = '\u3000' || c = '\uFEFF'

/-- The character class [^\s@] of the email regex: neither whitespace
nor the at sign. -/
def isEmailChar (c : Char) : Bool :=
  !(isJsSpace c) && c ≠ '@'

/-- The special-character class [@$!%*?&] of the password regex. -/
def isSpecialChar (c : Char) : Bool :=
  c = '@' || c = '$' || c = '!' || c = '%' || c = '*' || c = '?' || c = '&'

/-- value.trim() on the underlying character list: drop leading and
trailing JS whitespace. -/
def jsTrimList (l : List Char) : List Char :=
  ((l.dropWhile isJsSpace).reverse.dropWhile isJsSpace).reverse

/-- value.trim() as a String operation. -/
def jsTrim (v : String) : String :=
  ⟨jsTrimList v.data⟩

/- ------------------------------------------------------------------
  The email regex ^[^\s@]+@[^\s@]+\.[^\s@]+$ as a backtracking matcher
  over the character list, one definition per suffix of the pattern.
------------------------------------------------------------------ -/

/-- Matcher for the pattern suffix [^\s@]+$ : one or more email
characters reaching the end of the input. -/
def matchTld : List Char → Bool
  | [] => false
  | c :: rest => isEmailChar c && (rest.isEmpty || matchTld rest)

/-- Matcher for the pattern suffix \.[^\s@]+$ : a literal dot, then the
tld part. -/
def matchDotTld : List Char → Bool
  | [] => false
  | c :: rest => c = '.' && matchTld rest

/-- Matcher for the pattern suffix [^\s@]+\.[^\s@]+$ (the domain): after
each email character the matcher may either go on to the dot or consume
more domain characters, as regex backtracking does. -/
def matchDomain : List Char → Bool
  | [] => false
  | c :: rest => isEmailChar c && (matchDotTld rest || matchDomain rest)

/-- Matcher for the pattern suffix @[^\s@]+\.[^\s@]+$ : a literal at
sign, then the domain. -/
def matchAtDomain : List Char → Bool
  | [] => false
  | c :: rest => c = '@' && matchDomain rest

/-- The full anchored email regex ^[^\s@]+@[^\s@]+\.[^\s@]+$ . -/
def emailMatch : List Char → Bool
  | [] => false
  | c :: rest => isEmailChar c && (matchAtDomain rest || emailMatch rest)

/-- The phone regex ^\d{10,15}$ applied to a character list: between 10
and 15 characters, all ASCII digits. -/
def phoneDigitsMatch (l : List Char) : Bool :=
  decide (10 ≤ l.length) && decide (l.length ≤ 15) && l.all Char.isDigit

/-- value.replace of all whitespace runs by the empty string: removing
every JS whitespace character. -/
def stripSpaces (v : String) : List Char :=
  v.data.filter (fun c => !(isJsSpace c))

/- ------------------------------------------------------------------
  The validator (lines 20-43 of InteractiveForm.tsx).
------------------------------------------------------------------ -/

/-- validate of InteractiveForm.tsx: pure map from a field and its current
text to an optional error message.  Each branch translates the
corresponding case of the switch.  String length is taken on the character
list (the JS code takes UTF-16 length, which agrees on the characters
involved here outside the astral planes). -/
def validate (field : FieldName) (value : String) : Option String :=
  match field with
  | .name =>
      if jsTrim value = "" then some "Name is required." else none
  | .email =>
      if value = "" then some "Email is required."
      else if !(emailMatch value.data) then some "Invalid email format."
      else none
  | .phone =>
      if value = "" then some "Phone number is required."
      else if !(phoneDigitsMatch (stripSpaces value)) then
        some "Phone must be 10 to 15 digits."
      else none
  | .password =>
      if value = "" then some "Password is required."
      else if value.data.length < 8 then
        some "Password must be at least 8 characters long."
      else if !(value.data.any Char.isLower) then
        some "Must contain a lowercase letter."
      else if !(value.data.any Char.isUpper) then
        some "Must contain an uppercase letter."
      else if !(value.data.any Char.isDigit) then
        some "Must contain a number."
      else if !(value.data.any isSpecialChar) then
        some "Must contain a special character (@$!%*?&)."
      else none

/- ------------------------------------------------------------------
  The component state and its transitions.
------------------------------------------------------------------ -/

/-- The state held by the InteractiveForm component that the form logic
reads and writes: formData, errors, touched and isSubmitted (lines 8-18).
The password-visibility toggle is presentational and outside the form
state machine. -/
structure ComponentState : Type where
  formData : FormState
  errors : FormErrors
  touched : TouchedMap
  isSubmitted : Bool
deriving DecidableEq, Repr

/-- The initial state: four empty strings, empty error map, empty touched
map, not submitted. -/
def initialState : ComponentState :=
  { formData := ⟨"", "", "", ""⟩
    errors := ⟨none, none, none, none⟩
    touched := ⟨false, false, false, false⟩
    isSubmitted := false }

/-- handleChange (lines 45-53): store the new value; when the field is
touched, recompute its error, otherwise leave the error map alone. -/
def handleChange (field : FieldName) (value : String)
    (s : ComponentState) : ComponentState :=
  let s1 := { s with formData := s.formData.set field value }
  if s.touched.get field then
    { s1 with errors := s1.errors.set field (validate field value) }
  else s1

/-- handleBlur (lines 55-60): mark the field touched and recompute its
error from the current value. -/
def handleBlur (field : FieldName) (value : String)
    (s : ComponentState) : ComponentState :=
  { s with
    touched := s.touched.set field true
    errors := s.errors.set field (validate field value) }

/-- The error map recomputed from scratch for all four fields (the reduce
of lines 66-73 and 84-91): the entry of a field is present exactly when
validate returns a message for its current value. -/
def computeErrors (vals : FormState) : FormErrors :=
  ⟨validate .name vals.name, validate .email vals.email,
   validate .phone vals.phone, validate .password vals.password⟩

/-- Object.keys of the recomputed error map has length zero: no field has
an entry. -/
def errorsEmpty (e : FormErrors) : Bool :=
  e.name.isNone && e.email.isNone && e.phone.isNone && e.password.isNone

/-- isFormValid (lines 62-76): every value non-blank after trimming, and
the recomputed error map empty.  The submit control is disabled exactly
when this is false (line 179). -/
def isFormValid (vals : FormState) : Bool :=
  if !(decide (jsTrim vals.name ≠ "") && decide (jsTrim vals.email ≠ "") &&
       decide (jsTrim vals.phone ≠ "") && decide (jsTrim vals.password ≠ "")) then
    false
  else errorsEmpty (computeErrors vals)

/-- handleSubmit (lines 78-99): mark all four fields touched, replace the
error map by the recomputed one, and set the submitted flag when that map
is empty (otherwise the flag keeps its previous value). -/
def handleSubmit (s : ComponentState) : ComponentState :=
  let validationErrors := computeErrors s.formData
  { s with
    touched := ⟨true, true, true, true⟩
    errors := validationErrors
    isSubmitted :=
      if errorsEmpty validationErrors then true else s.isSubmitted }

/-- handleReset (lines 101-106): clear the submitted flag, the values, the
error map and the touched map. -/
def handleReset (_s : ComponentState) : ComponentState :=
  initialState

/- ------------------------------------------------------------------
  Spec-side characterisations, written from the specification text, to
  be compared with the matchers translated from the code.
------------------------------------------------------------------ -/

/-- What the spec says the email pattern accepts: one or more
non-whitespace non-at characters, an at sign, one or more such characters,
a dot, and one or more such characters. -/
def emailShape (l : List Char) : Prop :=
  ∃ a b c : List Char,
    l = a ++ '@' :: (b ++ '.' :: c) ∧ a ≠ [] ∧ b ≠ [] ∧ c ≠ [] ∧
    (∀ x ∈ a, isEmailChar x = true) ∧ (∀ x ∈ b, isEmailChar x = true) ∧
    (∀ x ∈ c, isEmailChar x = true)

/-- What the spec says an acceptable stripped phone number is: 10 to 15
characters, all decimal digits. -/
def phoneDigitsSpec (l : List Char) : Prop :=
  10 ≤ l.length ∧ l.length ≤ 15 ∧ ∀ c ∈ l, c.isDigit = true

/-- What the spec says validate returns on a non-empty password of length
at least 8: the character classes are checked in the fixed order lowercase,
uppercase, digit, special, and the first class with no occurrence in the
value wins its specific message; no error when all four occur. -/
def passwordMissingClassSpec (v : String) : Option String :=
  if ¬ (∃ c ∈ v.data, c.isLower = true) then
    some "Must contain a lowercase letter."
  else if ¬ (∃ c ∈ v.data, c.isUpper = true) then
    some "Must contain an uppercase letter."
  else if ¬ (∃ c ∈ v.data, c.isDigit = true) then
    some "Must contain a number."
  else if ¬ (∃ c ∈ v.data, isSpecialChar c = true) then
    some "Must contain a special character (@$!%*?&)."
  else none

/- ------------------------------------------------------------------
  Helper lemmas.
------------------------------------------------------------------ -/

theorem FieldMap.get_set_same {α : Type} (m : FieldMap α) (f : FieldName) (v : α) :
    (m.set f v).get f = v := by
  cases f <;> rfl

theorem FieldMap.get_set_ne {α : Type} (m : FieldMap α) {f g : FieldName} (v : α)
    (h : g ≠ f) : (m.set f v).get g = m.get g := by
  cases f <;> cases g <;> first | rfl | exact absurd rfl h

theorem forall_fieldName {p : FieldName → Prop} :
    (∀ f, p f) ↔ p .name ∧ p .email ∧ p .phone ∧ p .password := by
  constructor
  · intro h
    exact ⟨h _, h _, h _, h _⟩
  · rintro ⟨h1, h2, h3, h4⟩ f
    cases f <;> assumption

theorem computeErrors_get (vals : FormState) (f : FieldName) :
    (computeErrors vals).get f = validate f (vals.get f) := by
  cases f <;> rfl

theorem errorsEmpty_computeErrors (vals : FormState) :
    errorsEmpty (computeErrors vals) = true ↔
    ∀ f, validate f (vals.get f) = none := by
  rw [forall_fieldName]
  simp only [errorsEmpty, computeErrors, FieldMap.get, Bool.and_eq_true,
    Option.isNone_iff_eq_none]
  tauto

theorem matchTld_iff (l : List Char) :
    matchTld l = true ↔ l ≠ [] ∧ ∀ x ∈ l, isEmailChar x = true := by
  induction l with
  | nil => simp [matchTld]
  | cons c rest ih =>
    cases rest with
    | nil => simp [matchTld]
    | cons d rest2 =>
      rw [matchTld]
      simp only [List.isEmpty, Bool.false_or, Bool.and_eq_true, ih]
      constructor
      · rintro ⟨hc, -, hall⟩
        exact ⟨by simp, by simpa [hc] using hall⟩
      · rintro ⟨-, hall⟩
        refine ⟨hall c (by simp), by simp, fun x hx => hall x (by simp [hx])⟩

theorem matchDotTld_iff (l : List Char) :
    matchDotTld l = true ↔
    ∃ r, l = '.' :: r ∧ r ≠ [] ∧ ∀ x ∈ r, isEmailChar x = true := by
  cases l with
  | nil => simp [matchDotTld]
  | cons c rest =>
    simp only [matchDotTld, Bool.and_eq_true, decide_eq_true_eq, matchTld_iff]
    constructor
    · rintro ⟨rfl, h⟩
      exact ⟨rest, rfl, h⟩
    · rintro ⟨r, heq, h⟩
      obtain ⟨rfl, rfl⟩ : c = '.' ∧ rest = r := by
        simpa using heq
      exact ⟨rfl, h⟩

theorem matchDomain_iff (l : List Char) :
    matchDomain l = true ↔
    ∃ b c, l = b ++ '.' :: c ∧ b ≠ [] ∧ c ≠ [] ∧
      (∀ x ∈ b, isEmailChar x = true) ∧ (∀ x ∈ c, isEmailChar x = true) := by
  induction l with
  | nil =>
    constructor
    · intro h
      simp [matchDomain] at h
    · rintro ⟨b, c, heq, hb, -⟩
      cases b <;> simp_all
  | cons a rest ih =>
    rw [matchDomain]
    simp only [Bool.and_eq_true, Bool.or_eq_true, matchDotTld_iff, ih]
    constructor
    · rintro ⟨ha, ⟨r, rfl, hr, hall⟩ | ⟨b, c, rfl, hb, hc, hball, hcall⟩⟩
      · exact ⟨[a], r, rfl, by simp, hr, by simpa using ha, hall⟩
      · refine ⟨a :: b, c, rfl, by simp, hc, ?_, hcall⟩
        intro x hx
        rcases List.mem_cons.mp hx with rfl | hx
        · exact ha
        · exact hball x hx
    · rintro ⟨b, c, heq, hb, hc, hball, hcall⟩
      cases b with
      | nil => exact absurd rfl hb
      | cons x b2 =>
        obtain ⟨rfl, rfl⟩ : a = x ∧ rest = b2 ++ '.' :: c := by
          simpa using heq
        refine ⟨hball _ (by simp), ?_⟩
        cases b2 with
        | nil => exact Or.inl ⟨c, rfl, hc, hcall⟩
        | cons y b3 =>
          refine Or.inr ⟨y :: b3, c, rfl, by simp, hc, ?_, hcall⟩
          intro z hz
          exact hball z (by simp [List.mem_cons.mp hz])

theorem matchAtDomain_iff (l : List Char) :
    matchAtDomain l = true ↔ ∃ r, l = '@' :: r ∧ matchDomain r = true := by
  cases l with
  | nil => simp [matchAtDomain]
  | cons c rest =>
    simp only [matchAtDomain, Bool.and_eq_true, decide_eq_true_eq]
    constructor
    · rintro ⟨rfl, h⟩
      exact ⟨rest, rfl, h⟩
    · rintro ⟨r, heq, h⟩
      obtain ⟨rfl, rfl⟩ : c = '@' ∧ rest = r := by
        simpa using heq
      exact ⟨rfl, h⟩

theorem emailMatch_iff_emailShape (l : List Char) :
    emailMatch l = true ↔ emailShape l := by
  unfold emailShape
  induction l with
  | nil =>
    constructor
    · intro h
      simp [emailMatch] at h
    · rintro ⟨a, b, c, heq, ha, -⟩
      cases a <;> simp_all
  | cons x rest ih =>
    rw [emailMatch]
    simp only [Bool.and_eq_true, Bool.or_eq_true, matchAtDomain_iff, ih]
    constructor
    · rintro ⟨hx, ⟨r, rfl, hr⟩ | ⟨a, b, c, rfl, ha, hb, hc, haall, hball, hcall⟩⟩
      · obtain ⟨b, c, rfl, hb, hc, hball, hcall⟩ := (matchDomain_iff r).mp hr
        exact ⟨[x], b, c, rfl, by simp, hb, hc, by simpa using hx, hball, hcall⟩
      · refine ⟨x :: a, b, c, rfl, by simp, hb, hc, ?_, hball, hcall⟩
        intro z hz
        rcases List.mem_cons.mp hz with rfl | hz
        · exact hx
        · exact haall z hz
    · rintro ⟨a, b, c, heq, ha, hb, hc, haall, hball, hcall⟩
      cases a with
      | nil => exact absurd rfl ha
      | cons y a2 =>
        obtain ⟨rfl, rfl⟩ : x = y ∧ rest = a2 ++ '@' :: (b ++ '.' :: c) := by
          simpa using heq
        refine ⟨haall _ (by simp), ?_⟩
        cases a2 with
        | nil =>
          refine Or.inl ⟨b ++ '.' :: c, rfl, (matchDomain_iff _).mpr ?_⟩
          exact ⟨b, c, rfl, hb, hc, hball, hcall⟩
        | cons z a3 =>
          refine Or.inr ⟨z :: a3, b, c, rfl, by simp, hb, hc, ?_, hball, hcall⟩
          intro w hw
          exact haall w (by simp [List.mem_cons.mp hw])

theorem hasAllFields_iff (vals : FormState) :
    (decide (jsTrim vals.name ≠ "") && decide (jsTrim vals.email ≠ "") &&
     decide (jsTrim vals.phone ≠ "") && decide (jsTrim vals.password ≠ "")) = true ↔
    ∀ f, jsTrim (vals.get f) ≠ "" := by
  rw [@forall_fieldName (fun f => jsTrim (vals.get f) ≠ "")]
  simp [FieldMap.get, and_assoc]

theorem isFormValid_eq (vals : FormState) :
    isFormValid vals =
      ((decide (jsTrim vals.name ≠ "") && decide (jsTrim vals.email ≠ "") &&
        decide (jsTrim vals.phone ≠ "") && decide (jsTrim vals.password ≠ "")) &&
       errorsEmpty (computeErrors vals)) := by
  unfold isFormValid
  cases h : (decide (jsTrim vals.name ≠ "") && decide (jsTrim vals.email ≠ "") &&
      decide (jsTrim vals.phone ≠ "") && decide (jsTrim vals.password ≠ "")) <;>
    simp [h]

theorem phoneDigitsMatch_iff (l : List Char) :
    phoneDigitsMatch l = true ↔ phoneDigitsSpec l := by
  simp [phoneDigitsMatch, phoneDigitsSpec, List.all_eq_true, and_assoc]

/- ------------------------------------------------------------------
  The claims.
------------------------------------------------------------------ -/

/-- Claim C6: for each of the four fields, validate applied to the empty
string returns that field's required message. -/
theorem validate_empty_returns_required_message :
    validate .name "" = some "Name is required." ∧
    validate .email "" = some "Email is required." ∧
    validate .phone "" = some "Phone number is required." ∧
    validate .password "" = some "Password is required." := by
  decide

/-- Claim C10: handleSubmit never modifies the form values; in particular
a failed submit leaves all four entered values intact. -/
theorem submit_preserves_form_values (s : ComponentState) :
    (handleSubmit s).formData = s.formData := rfl

/-- Claim C9: from a submitted state, handleReset yields exactly the
initial state: all four values empty, error map empty, touched map empty,
and the editing state (submitted flag cleared). -/
theorem reset_from_submitted_restores_initial_state (s : ComponentState)
    (_h : s.isSubmitted = true) :
    handleReset s = initialState ∧
    (handleReset s).formData = ⟨"", "", "", ""⟩ ∧
    (handleReset s).errors = ⟨none, none, none, none⟩ ∧
    (handleReset s).touched = ⟨false, false, false, false⟩ ∧
    (handleReset s).isSubmitted = false :=
  ⟨rfl, rfl, rfl, rfl, rfl⟩

/-- Witness for C9 at a concrete submitted state. -/
theorem reset_from_submitted_restores_initial_state_witness :
    handleReset { initialState with isSubmitted := true } = initialState :=
  (reset_from_submitted_restores_initial_state
    { initialState with isSubmitted := true } rfl).1

/-- Claim C2: the submit control is enabled (isFormValid is true, the
negation of the disabled attribute) exactly when validate returns no error
for every field and every value is non-blank after trimming. -/
theorem isFormValid_iff_all_valid_and_nonblank (vals : FormState) :
    isFormValid vals = true ↔
    ((∀ f, validate f (vals.get f) = none) ∧ ∀ f, jsTrim (vals.get f) ≠ "") := by
  rw [isFormValid_eq, Bool.and_eq_true, errorsEmpty_computeErrors,
    hasAllFields_iff]
  exact and_comm

/-- Claim C7: handleChange stores the new value of the changed field,
leaves every other field's value, the touched map and the submitted flag
unchanged, leaves the whole error map unchanged when the field is
untouched, and recomputes exactly the changed field's error when it is
touched. -/
theorem change_sets_value_and_gates_error (f : FieldName) (v : String)
    (s : ComponentState) :
    ((handleChange f v s).formData.get f = v) ∧
    (∀ g, g ≠ f → (handleChange f v s).formData.get g = s.formData.get g) ∧
    ((handleChange f v s).touched = s.touched) ∧
    ((handleChange f v s).isSubmitted = s.isSubmitted) ∧
    (s.touched.get f = false → (handleChange f v s).errors = s.errors) ∧
    (s.touched.get f = true →
      (handleChange f v s).errors.get f = validate f v ∧
      ∀ g, g ≠ f → (handleChange f v s).errors.get g = s.errors.get g) := by
  have hval : ∀ g, g ≠ f → (s.formData.set f v).get g = s.formData.get g :=
    fun g hg => FieldMap.get_set_ne _ _ hg
  have herr : ∀ g, g ≠ f → (s.errors.set f (validate f v)).get g = s.errors.get g :=
    fun g hg => FieldMap.get_set_ne _ _ hg
  unfold handleChange
  cases ht : s.touched.get f <;>
    simp [ht, FieldMap.get_set_same] <;>
    first
      | exact fun g hg => hval g hg
      | exact ⟨fun g hg => hval g hg, fun g hg => herr g hg⟩

/-- Witness for C7: changing the untouched name field of the initial state
leaves the error map unchanged. -/
theorem change_sets_value_and_gates_error_witness :
    (handleChange .name "x" initialState).errors = initialState.errors :=
  (change_sets_value_and_gates_error .name "x" initialState).2.2.2.2.1 rfl

/-- Claim C8: handleBlur marks the field touched and stores the validation
result of the blurred value; a touched field stays touched across change,
blur and submit transitions; and after a blur of a field, a change of that
field recomputes its displayed error from the new value. -/
theorem blur_touches_and_recomputes_error (f : FieldName) (v : String)
    (s : ComponentState) :
    ((handleBlur f v s).touched.get f = true) ∧
    ((handleBlur f v s).errors.get f = validate f v) ∧
    (s.touched.get f = true →
      (∀ g w, (handleChange g w s).touched.get f = true) ∧
      (∀ g w, (handleBlur g w s).touched.get f = true) ∧
      (handleSubmit s).touched.get f = true) ∧
    (∀ w, (handleChange f w (handleBlur f v s)).errors.get f = validate f w) := by
  refine ⟨FieldMap.get_set_same _ f _, FieldMap.get_set_same _ f _, ?_, ?_⟩
  · intro ht
    refine ⟨?_, ?_, by cases f <;> rfl⟩
    · intro g w
      unfold handleChange
      cases hg : s.touched.get g <;> simp [hg, ht]
    · intro g w
      by_cases hfg : f = g
      · subst hfg
        exact FieldMap.get_set_same _ f _
      · rw [show (handleBlur g w s).touched = s.touched.set g true from rfl]
        rw [FieldMap.get_set_ne _ _ hfg]
        exact ht
  · intro w
    unfold handleChange
    rw [show (handleBlur f v s).touched = s.touched.set f true from rfl]
    rw [FieldMap.get_set_same]
    simp [FieldMap.get_set_same]

/-- Witness for C8: with the name field touched, the name field stays
touched across a submit. -/
theorem blur_touches_and_recomputes_error_witness :
    (handleSubmit (handleBlur .name "x" initialState)).touched.get .name = true :=
  ((blur_touches_and_recomputes_error .name "y"
      (handleBlur .name "x" initialState)).2.2.1 (by decide)).2.2

/-- Claim C1: from an editing state, handleSubmit marks all four fields
touched, replaces the error map by the result of validating every field's
current value (so every invalid field's message is present, blurred or
not), and ends submitted exactly when no field validates to an error. -/
theorem submit_touches_all_and_submits_iff_no_error (s : ComponentState)
    (h : s.isSubmitted = false) :
    (∀ f, (handleSubmit s).touched.get f = true) ∧
    (∀ f, (handleSubmit s).errors.get f = validate f (s.formData.get f)) ∧
    ((handleSubmit s).isSubmitted = true ↔
      ∀ f, validate f (s.formData.get f) = none) := by
  refine ⟨fun f => by cases f <;> rfl, fun f => by cases f <;> rfl, ?_⟩
  have hiff := errorsEmpty_computeErrors s.formData
  show (if errorsEmpty (computeErrors s.formData) = true then true
        else s.isSubmitted) = true ↔ _
  cases he : errorsEmpty (computeErrors s.formData) with
  | false =>
    rw [he] at hiff
    simp only [Bool.false_eq_true, if_false, h, false_iff]
    intro hall
    exact absurd (hiff.mpr hall) (by simp)
  | true =>
    rw [he] at hiff
    simp only [if_true, true_iff]
    exact hiff.mp rfl

/-- Witness for C1: submitting the initial (editing, all-empty) state. -/
theorem submit_touches_all_and_submits_iff_no_error_witness :
    (∀ f, (handleSubmit initialState).touched.get f = true) ∧
    (∀ f, (handleSubmit initialState).errors.get f =
      validate f (initialState.formData.get f)) ∧
    ((handleSubmit initialState).isSubmitted = true ↔
      ∀ f, validate f (initialState.formData.get f) = none) :=
  submit_touches_all_and_submits_iff_no_error initialState rfl

/-- Claim C3: on a non-empty password of length at least 8, validate
checks lowercase, uppercase, digit and special in that fixed order and
returns the message of the first missing class (none when all four are
present); in particular the two examples of the spec evaluate as stated. -/
theorem password_checks_in_fixed_order :
    (∀ v : String, v ≠ "" → 8 ≤ v.data.length →
      validate .password v = passwordMissingClassSpec v) ∧
    (validate .password "Abcdef1!" = none) ∧
    (validate .password "abcdefg1" = some "Must contain an uppercase letter.") := by
  refine ⟨?_, by decide, by decide⟩
  intro v hv hlen
  simp only [validate, passwordMissingClassSpec]
  rw [if_neg hv, if_neg (by omega)]
  by_cases h1 : ∃ c ∈ v.data, c.isLower = true
  · rw [if_neg (by simp [List.any_eq_true, h1]), if_neg (not_not_intro h1)]
    by_cases h2 : ∃ c ∈ v.data, c.isUpper = true
    · rw [if_neg (by simp [List.any_eq_true, h2]), if_neg (not_not_intro h2)]
      by_cases h3 : ∃ c ∈ v.data, c.isDigit = true
      · rw [if_neg (by simp [List.any_eq_true, h3]), if_neg (not_not_intro h3)]
        by_cases h4 : ∃ c ∈ v.data, isSpecialChar c = true
        · rw [if_neg (by simp [List.any_eq_true, h4]), if_neg (not_not_intro h4)]
        · rw [if_pos (by simpa [List.any_eq_false] using h4), if_pos h4]
      · rw [if_pos (by simpa [List.any_eq_false] using h3), if_pos h3]
    · rw [if_pos (by simpa [List.any_eq_false] using h2), if_pos h2]
  · rw [if_pos (by simpa [List.any_eq_false] using h1), if_pos h1]

/-- Witness for C3 at the spec's example password. -/
theorem password_checks_in_fixed_order_witness :
    validate .password "abcdefg1" = passwordMissingClassSpec "abcdefg1" :=
  password_checks_in_fixed_order.1 "abcdefg1" (by decide) (by decide)

/-- Claim C4: validate on the email field demands a non-empty value, then
accepts exactly the strings of the shape local at-sign domain dot tld with
every part one or more non-whitespace non-at characters, rejecting all
others with the invalid-format message; the spec's two examples evaluate
as stated. -/
theorem email_validation_matches_pattern :
    (validate .email "" = some "Email is required.") ∧
    (∀ v : String, v ≠ "" →
      ((validate .email v = none ↔ emailShape v.data) ∧
       (validate .email v = some "Invalid email format." ↔ ¬ emailShape v.data))) ∧
    (validate .email "a@b.c" = none) ∧
    (validate .email "abc" = some "Invalid email format.") := by
  refine ⟨by decide, ?_, by decide, by decide⟩
  intro v hv
  rw [← emailMatch_iff_emailShape]
  simp only [validate]
  rw [if_neg hv]
  cases he : emailMatch v.data <;> simp [he]

/-- Witness for C4 at the spec's accepted example. -/
theorem email_validation_matches_pattern_witness :
    validate .email "a@b.c" = none ↔ emailShape ("a@b.c".data) :=
  (email_validation_matches_pattern.2.1 "a@b.c" (by decide)).1

/-- Claim C5: validate on the phone field demands a non-empty value, then
accepts exactly the values whose whitespace-stripped form is 10 to 15
decimal digits, rejecting all others with the digit-count message; the
spec's three examples evaluate as stated. -/
theorem phone_validation_digit_count :
    (validate .phone "" = some "Phone number is required.") ∧
    (∀ v : String, v ≠ "" →
      ((validate .phone v = none ↔ phoneDigitsSpec (stripSpaces v)) ∧
       (validate .phone v = some "Phone must be 10 to 15 digits." ↔
         ¬ phoneDigitsSpec (stripSpaces v)))) ∧
    (validate .phone "123" = some "Phone must be 10 to 15 digits.") ∧
    (validate .phone "1234567890" = none) ∧
    (validate .phone "123 456 7890" = none) := by
  refine ⟨by decide, ?_, by decide, by decide, by decide⟩
  intro v hv
  rw [← phoneDigitsMatch_iff]
  simp only [validate]
  rw [if_neg hv]
  cases he : phoneDigitsMatch (stripSpaces v) <;> simp [he]

/-- Witness for C5 at the spec's accepted example with inner spaces. -/
theorem phone_validation_digit_count_witness :
    validate .phone "123 456 7890" = none ↔
      phoneDigitsSpec (stripSpaces "123 456 7890") :=
  (phone_validation_digit_count.2.1 "123 456 7890" (by decide)).1

end InteractiveForm
